import Mathlib

/-!
Verification development for the xibo-cms-sdk-js client library.

The definitions below are a shallow embedding of the repository's
authentication token lifecycle manager (src/auth/OAuth2Manager.ts,
src/auth/TokenManager.ts), its resilient request-execution layer
(src/utils/retry.ts, src/client/HttpClient.ts) and its error taxonomy
(src/errors/*.ts).  JavaScript numbers that hold delays and multipliers
are modelled as rationals; epoch timestamps and header integers as
integers.  A JavaScript value that may be `undefined` is modelled with
Option; JavaScript string truthiness (empty string is falsy) is modelled
by explicit emptiness tests.  parseInt returning NaN is modelled as
Option.none, which is observationally equal to `undefined` for every
consumer in scope (both are falsy).
-/

namespace XiboSDK

/-! Error taxonomy, from src/errors.  Every concrete error class extends
XiboError and fixes the status passed to the base constructor:
AuthenticationError 401, AuthorizationError 403, NotFoundError 404,
ValidationError 400, RateLimitError 429, ServerError carries its status,
and the base XiboError (the classifier's default branch) carries the
status it was given. -/

/-- Hint fields of RateLimitError (src/errors/RateLimitError.ts):
retryAfter, remaining, reset, each possibly undefined. -/
structure RateLimitData where
  retryAfter : Option Int
  remaining : Option Int
  reset : Option Int
deriving DecidableEq, Repr

/-- One constructor per concrete error class of src/errors. The
generic constructor is the base XiboError as built by the classifier's
default branch, carrying a string code and a status. -/
inductive XErr where
  | authentication (message : String)
  | authorization (message : String)
  | notFound (message : String)
  | validation (message : String)
  | rateLimit (message : String) (data : RateLimitData)
  | server (message : String) (status : Nat)
  | generic (message : String) (code : String) (status : Nat)
deriving DecidableEq, Repr

/-- Status property assigned by each subclass constructor's super call. -/
def XErr.status : XErr → Nat
  | .authentication _ => 401
  | .authorization _ => 403
  | .notFound _ => 404
  | .validation _ => 400
  | .rateLimit _ _ => 429
  | .server _ s => s
  | .generic _ _ s => s

/-- Permanent (caller or permission) error kinds named by the spec:
Authentication, Authorization, NotFound, Validation. -/
def XErr.isPermanentKind : XErr → Bool
  | .authentication _ => true
  | .authorization _ => true
  | .notFound _ => true
  | .validation _ => true
  | _ => false

/-! Header handling. Response headers are an association list; the
repository never produces duplicate keys, so the first binding wins. -/

abbrev Headers := List (String × String)

/-- Property read headers[k] on the header object. -/
def lookupHeader (hs : Headers) (k : String) : Option String :=
  (hs.find? (fun p => p.1 == k)).map Prod.snd

/-- ASCII lower-casing of one character (header keys are ASCII). -/
def lowerChar (c : Char) : Char :=
  if 'A' ≤ c ∧ c ≤ 'Z' then Char.ofNat (c.toNat + 32) else c

/-- ASCII lower-casing, the effect of key.toLowerCase() on header keys. -/
def toLowerAscii (s : String) : String :=
  ⟨s.data.map lowerChar⟩

/-- Lower-cases every header key, as HttpClient.normalizeHeaders does
(values in scope are already strings). -/
def normalizeHeaders (hs : Headers) : Headers :=
  hs.map (fun p => (toLowerAscii p.1, p.2))

/-- Whitespace characters parseInt skips. -/
def isJsSpace (c : Char) : Bool :=
  c == ' ' || c == '\t' || c == '\n' || c == '\r'

/-- Strip leading and trailing whitespace from a character list. -/
def trimChars (cs : List Char) : List Char :=
  ((cs.dropWhile isJsSpace).reverse.dropWhile isJsSpace).reverse

/-- Numeric value of a list of decimal digit characters. -/
def digitsValue (cs : List Char) : Nat :=
  cs.foldl (fun acc c => acc * 10 + (c.toNat - 48)) 0

/-- JavaScript parseInt(s, 10): skip surrounding whitespace, optional
sign, then the longest leading run of digits; none models NaN (no
digits found). -/
def jsParseInt (s : String) : Option Int :=
  match trimChars s.data with
  | '-' :: rest =>
      let ds := rest.takeWhile Char.isDigit
      if ds.isEmpty then none else some (-(digitsValue ds : Int))
  | '+' :: rest =>
      let ds := rest.takeWhile Char.isDigit
      if ds.isEmpty then none else some (digitsValue ds : Int)
  | cs =>
      let ds := cs.takeWhile Char.isDigit
      if ds.isEmpty then none else some (digitsValue ds : Int)

/-- Ternary pattern used by RateLimitError.fromHeaders for each hint:
headers[k] ? parseInt(headers[k], 10) : undefined.  The empty string is
falsy, so it also yields undefined. -/
def headerInt (hs : Headers) (k : String) : Option Int :=
  match lookupHeader hs k with
  | some v => if v = "" then none else jsParseInt v
  | none => none

/-- RateLimitError.fromHeaders (src/errors/RateLimitError.ts): reads the
retry-after, x-ratelimit-remaining and x-ratelimit-reset headers. -/
def rateLimitFromHeaders (hs : Headers) : RateLimitData :=
  { retryAfter := headerInt hs "retry-after"
    remaining := headerInt hs "x-ratelimit-remaining"
    reset := headerInt hs "x-ratelimit-reset" }

/-- RateLimitError.getRetryDelay: a truthy retryAfter (a nonzero number;
seconds) is converted to milliseconds, otherwise the default collection
interval of 60000 ms applies (undefined, 0 and NaN are all falsy). -/
def getRetryDelay (d : RateLimitData) : ℚ :=
  match d.retryAfter with
  | some r => if r ≠ 0 then (r : ℚ) * 1000 else 60000
  | none => 60000

/-! Transport failures as seen by HttpClient's response interceptor: an
axios error with an optional HTTP response, an optional low-level error
code, and a message. -/

/-- Response body fields the classifier inspects; the empty string models
an absent or empty (falsy) field. -/
structure ResponseBody where
  message : String
  error : String
deriving DecidableEq, Repr

/-- The failed HTTP response, when one was received. -/
structure HttpResponse where
  status : Nat
  headers : Headers
  body : Option ResponseBody
deriving DecidableEq, Repr

/-- An axios error: response is absent on pure transport failures, code
holds the low-level network error code (for example ECONNRESET). -/
structure TransportFailure where
  response : Option HttpResponse
  code : Option String
  message : String
deriving DecidableEq, Repr

/-- Expression response?.status || 0 in handleResponseError. -/
def responseStatus (e : TransportFailure) : Nat :=
  match e.response with
  | some r => r.status
  | none => 0

/-- Message extraction in handleResponseError: data?.message, else
data?.error, else error.message, else the fixed fallback text. -/
def extractMessage (data : Option ResponseBody) (errMessage : String) : String :=
  match data with
  | some d =>
      if d.message ≠ "" then d.message
      else if d.error ≠ "" then d.error
      else if errMessage ≠ "" then errMessage
      else "Request failed"
  | none => if errMessage ≠ "" then errMessage else "Request failed"

/-- HttpClient.handleResponseError (src/client/HttpClient.ts, lines
217-259): the switch over response?.status || 0. -/
def handleResponseError (e : TransportFailure) : XErr :=
  let status := responseStatus e
  let data := e.response.bind (·.body)
  let message := extractMessage data e.message
  if status = 401 then .authentication message
  else if status = 403 then .authorization message
  else if status = 404 then .notFound message
  else if status = 400 ∨ status = 422 then .validation message
  else if status = 429 then
    .rateLimit message (rateLimitFromHeaders
      (normalizeHeaders (match e.response with | some r => r.headers | none => [])))
  else if 500 ≤ status then .server message status
  else .generic message (toString status) status

/-! Retry module, from src/utils/retry.ts. -/

/-- RetryOptions (src/utils/retry.ts, lines 7-20). -/
structure RetryOptions where
  maxAttempts : Nat
  initialDelay : ℚ
  maxDelay : ℚ
  backoffMultiplier : ℚ
  jitter : Bool
deriving DecidableEq, Repr

/-- DEFAULT_RETRY_OPTIONS (src/utils/retry.ts, lines 25-31). -/
def DEFAULT_RETRY_OPTIONS : RetryOptions :=
  { maxAttempts := 3
    initialDelay := 1000
    maxDelay := 30000
    backoffMultiplier := 2
    jitter := true }

/-- A value thrown inside the retry loop: either a classified XiboError
(the only shape the HttpClient pipeline produces) or a raw Node/axios
transport error, which carries a code property but no status property. -/
inductive JsError where
  | xibo (e : XErr)
  | node (code : String) (message : String)
deriving DecidableEq, Repr

/-- Network error code allow-list in isRetryableError. -/
def networkCodes : List String :=
  ["ECONNRESET", "ENOTFOUND", "ECONNREFUSED", "ETIMEDOUT"]

/-- isRetryableError (src/utils/retry.ts, lines 36-54): RateLimitError
instances are retryable; otherwise an object with a status property is
retryable iff status is at least 500 or equals 408 or 429; otherwise an
object with a code property is retryable iff the code is a known
transient network code.  Every XiboError has a status property, so the
code branch is reached only by raw errors. -/
def isRetryableError : JsError → Bool
  | .xibo (.rateLimit _ _) => true
  | .xibo e => decide (500 ≤ e.status) || decide (e.status = 408) || decide (e.status = 429)
  | .node code _ => networkCodes.contains code

/-- calculateDelay (src/utils/retry.ts, lines 59-75).  The rand argument
models the Math.random() draw in [0, 1); it is ignored when jitter is
disabled. -/
def calculateDelay (attempt : Nat) (options : RetryOptions) (rand : ℚ) : ℚ :=
  let delay := options.initialDelay * options.backoffMultiplier ^ (attempt - 1)
  let delay := min delay options.maxDelay
  let delay :=
    if options.jitter then delay + (rand - 1/2) * 2 * (delay * (1/4)) else delay
  max delay 0

/-- Outcome of one run of retryWithBackoff: the returned value or thrown
error, how many attempts were performed, and the backoff delays slept
between attempts, in order.  The error value none models rethrowing an
undefined lastError (reachable only when maxAttempts is 0, where the
loop body never runs). -/
structure ExecTrace (α : Type) where
  result : Except (Option JsError) α
  attemptsMade : Nat
  delays : List ℚ

/-- Delay chosen between attempts: a RateLimitError supplies its own
getRetryDelay, anything else uses exponential backoff. -/
def retryDelayFor (e : JsError) (attempt : Nat) (config : RetryOptions) (rand : ℚ) : ℚ :=
  match e with
  | .xibo (.rateLimit _ d) => getRetryDelay d
  | _ => calculateDelay attempt config rand

/-- Loop body of retryWithBackoff, indexed by the current attempt number
and the number of loop iterations still allowed (maxAttempts at entry;
the current attempt equals maxAttempts exactly when one iteration
remains).  The function fn gives the outcome of each attempt; rands
gives the Math.random() draw used at each attempt. -/
def retryAux (fn : Nat → Except JsError α) (config : RetryOptions) (rands : Nat → ℚ) :
    Nat → Nat → ExecTrace α
  | _, 0 => ⟨.error none, 0, []⟩
  | attempt, remaining + 1 =>
    match fn attempt with
    | .ok a => ⟨.ok a, 1, []⟩
    | .error e =>
      if isRetryableError e then
        if remaining = 0 then ⟨.error (some e), 1, []⟩
        else
          let d := retryDelayFor e attempt config (rands attempt)
          let rest := retryAux fn config rands (attempt + 1) remaining
          ⟨rest.result, rest.attemptsMade + 1, d :: rest.delays⟩
      else ⟨.error (some e), 1, []⟩

/-- retryWithBackoff (src/utils/retry.ts, lines 87-139), with the merged
configuration passed in whole. -/
def retryWithBackoff (fn : Nat → Except JsError α) (config : RetryOptions) (rands : Nat → ℚ) :
    ExecTrace α :=
  retryAux fn config rands 1 config.maxAttempts

/-- Error translation performed by HttpClient's response interceptor:
every failed attempt is rejected with the classified XiboError. -/
def classifyOutcome (outcome : Except TransportFailure α) : Except JsError α :=
  match outcome with
  | .ok a => .ok a
  | .error e => .error (.xibo (handleResponseError e))

/-- HttpClient.request: the retry loop driven over transport attempts
whose failures pass through the response interceptor first. -/
def httpRequest (transport : Nat → Except TransportFailure α) (config : RetryOptions)
    (rands : Nat → ℚ) : ExecTrace α :=
  retryWithBackoff (fun attempt => classifyOutcome (transport attempt)) config rands

/-! Token lifecycle, from src/auth/TokenManager.ts and
src/auth/OAuth2Manager.ts. -/

/-- TokenResponse (src/types/index.ts, lines 93-104).  The declared
TypeScript type makes access_token a required string, but the value
built by obtainClientCredentialsToken can carry undefined in that field
because the read is an unchecked cast; the runtime shape is therefore
modelled with Option. -/
structure TokenResponse where
  access_token : Option String
  token_type : String
  expires_in : Int
  refresh_token : Option String
  scope : Option String
deriving DecidableEq, Repr

/-- CachedToken (src/types/index.ts, lines 109-114). -/
structure CachedToken extends TokenResponse where
  obtained_at : Int
  expires_at : Int
deriving DecidableEq, Repr

/-- State of one TokenManager: the in-memory cachedToken field and the
value held by the TokenStorage under the manager's single storage key
(the JSON round trip through the store is the identity on this model). -/
structure TMState where
  cachedToken : Option CachedToken
  storage : Option CachedToken
deriving DecidableEq, Repr

/-- Fresh TokenManager: no token anywhere. -/
def TMState.empty : TMState := ⟨none, none⟩

/-- CachedToken built by TokenManager.storeToken: the token response
plus obtained_at = now and expires_at = now + expires_in * 1000. -/
def mkCachedToken (tr : TokenResponse) (now : Int) : CachedToken :=
  { tr with obtained_at := now, expires_at := now + tr.expires_in * 1000 }

/-- TokenManager.storeToken (src/auth/TokenManager.ts, lines 331-346):
replaces the in-memory copy and mirrors the same serialized token to
the storage. -/
def storeToken (tr : TokenResponse) (now : Int) (_st : TMState) : TMState :=
  let ct := mkCachedToken tr now
  ⟨some ct, some ct⟩

/-- TokenManager.isTokenValid: expires_at must lie strictly beyond now
plus the five-minute buffer. -/
def isTokenValid (t : CachedToken) (now : Int) : Bool :=
  decide (now + 5 * 60 * 1000 < t.expires_at)

/-- TokenManager.needsRefresh: expires_at within now plus the ten-minute
refresh buffer. -/
def needsRefresh (t : CachedToken) (now : Int) : Bool :=
  decide (t.expires_at ≤ now + 10 * 60 * 1000)

/-- TokenManager.clearToken: drops the in-memory token and deletes the
storage entry. -/
def clearToken (_st : TMState) : TMState := ⟨none, none⟩

/-- Storage half of TokenManager.getToken: load the stored token, adopt
it into memory when still valid, otherwise clear everything. -/
def loadFromStorage (st : TMState) (now : Int) : Option CachedToken × TMState :=
  match st.storage with
  | some p =>
      if isTokenValid p now then (some p, { st with cachedToken := some p })
      else (none, clearToken st)
  | none => (none, st)

/-- TokenManager.getToken (src/auth/TokenManager.ts, lines 351-377):
answer from memory when the cached token is valid, else consult the
storage. -/
def getToken (st : TMState) (now : Int) : Option CachedToken × TMState :=
  match st.cachedToken with
  | some c => if isTokenValid c now then (some c, st) else loadFromStorage st now
  | none => loadFromStorage st now

/-- TokenManager.getAccessToken: token?.access_token || null (an empty
access token string is falsy and also yields null). -/
def tmGetAccessToken (st : TMState) (now : Int) : Option String × TMState :=
  let (t, st') := getToken st now
  (t.bind fun c => c.access_token.bind fun a => if a ≠ "" then some a else none, st')

/-- TokenFreshnessState of the spec, derived from the two code
predicates exactly as refreshTokenIfNeeded consumes them: an invalid
token is expired, a valid token within the refresh buffer needs
refresh, anything else is valid. -/
inductive TokenFreshnessState where
  | valid
  | needsRefresh
  | expired
deriving DecidableEq, Repr

/-- Freshness classification of a cached token at time now. -/
def freshness (t : CachedToken) (now : Int) : TokenFreshnessState :=
  if !isTokenValid t now then .expired
  else if needsRefresh t now then .needsRefresh
  else .valid

/-- Grant type configured on the OAuth2Manager. -/
inductive GrantType where
  | client_credentials
  | authorization_code
deriving DecidableEq, Repr

/-- Fields read off result.token, the parsed JSON object returned by the
simple-oauth2 getToken call; any of them may be missing. -/
structure RawToken where
  access_token : Option String
  token_type : Option String
  expires_in : Option Int
  refresh_token : Option String
  scope : Option String
deriving DecidableEq, Repr

/-- TokenResponse literal built in obtainClientCredentialsToken:
access_token is an unchecked cast (undefined stays undefined), while
token_type and expires_in get falsy-coalesced defaults (an empty string
or a zero also falls back). -/
def tokenResponseOfRaw (raw : RawToken) : TokenResponse :=
  { access_token := raw.access_token
    token_type :=
      match raw.token_type with
      | some s => if s ≠ "" then s else "Bearer"
      | none => "Bearer"
    expires_in :=
      match raw.expires_in with
      | some n => if n ≠ 0 then n else 3600
      | none => 3600
    refresh_token := raw.refresh_token
    scope := raw.scope }

/-- OAuth2Manager.obtainClientCredentialsToken (src/auth/OAuth2Manager.ts,
lines 187-204).  The call argument is the outcome of the network
exchange: a parsed token object, or a thrown error's message.  Failures
propagate uncaught; a manager without a client-credentials client
throws before any network call. -/
def obtainClientCredentialsToken (hasClientCredentials : Bool)
    (call : Except String RawToken) : Except String TokenResponse :=
  if hasClientCredentials = false then .error "Client credentials flow not initialized"
  else call.map tokenResponseOfRaw

/-- OAuth2Manager.obtainToken (src/auth/OAuth2Manager.ts, lines 161-182):
dispatches on the grant type and wraps every failure in an
AuthenticationError whose message prefixes the underlying cause. -/
def obtainToken (grantType : GrantType) (hasClientCredentials : Bool)
    (call : Except String RawToken) : Except XErr TokenResponse :=
  match grantType with
  | .client_credentials =>
      match obtainClientCredentialsToken hasClientCredentials call with
      | .ok tr => .ok tr
      | .error msg => .error (.authentication ("OAuth2 authentication failed: " ++ msg))
  | .authorization_code =>
      .error (.authentication
        ("OAuth2 authentication failed: " ++
         "Authorization code flow requires manual authorization step"))

/-- Outcome of OAuth2Manager.getAccessToken: the access token string (or
the propagated error), the token-manager state afterwards, and how many
token-endpoint exchanges were performed. -/
structure AuthResult where
  result : Except XErr (Option String)
  state : TMState
  providerCalls : Nat

/-- OAuth2Manager.getAccessToken (src/auth/OAuth2Manager.ts, lines
116-130): reuse an existing valid token, otherwise obtain and store a
new one (one provider exchange).  The same logical clock now stands for
both Date.now() reads inside the call. -/
def oauthGetAccessToken (st : TMState) (now : Int) (grantType : GrantType)
    (hasClientCredentials : Bool) (call : Except String RawToken) : AuthResult :=
  let (existing, st1) := tmGetAccessToken st now
  match existing with
  | some a => ⟨.ok (some a), st1, 0⟩
  | none =>
      match obtainToken grantType hasClientCredentials call with
      | .error e => ⟨.error e, st1, 1⟩
      | .ok tr => ⟨.ok tr.access_token, storeToken tr now st1, 1⟩

/-! Cache operation sequences, for the put-only-entry invariant. -/

/-- One public TokenManager cache operation. -/
inductive TMOp where
  | getOp (now : Int)
  | putOp (tr : TokenResponse) (now : Int)
  | clearOp
deriving DecidableEq, Repr

/-- State transformer of one cache operation. -/
def applyOp (st : TMState) : TMOp → TMState
  | .getOp now => (getToken st now).2
  | .putOp tr now => storeToken tr now st
  | .clearOp => clearToken st

/-- Run a sequence of cache operations from a starting state. -/
def runOps (st : TMState) (ops : List TMOp) : TMState :=
  ops.foldl applyOp st

/-- A token is observable in a state when it sits in memory or in the
storage. -/
def tokenIn (st : TMState) (ct : CachedToken) : Prop :=
  st.cachedToken = some ct ∨ st.storage = some ct

/-- A token was installed by some put of the sequence, with the
CachedToken fields computed by storeToken. -/
def InstalledByPut (ops : List TMOp) (ct : CachedToken) : Prop :=
  ∃ tr now, TMOp.putOp tr now ∈ ops ∧ ct = mkCachedToken tr now

/-! Helper lemmas shared by several claims. -/

/-- Permanent kinds are rejected by isRetryableError: their statuses are
401, 403, 404 and 400, none of which is at least 500 or equals 408 or
429. -/
lemma permanent_not_retryable (e : XErr) (h : e.isPermanentKind = true) :
    isRetryableError (.xibo e) = false := by
  cases e <;> simp [XErr.isPermanentKind] at h <;> rfl

/-- First backoff delay of a run whose first attempt fails with a
retryable error and whose budget allows a retry. -/
lemma firstDelay_of_retryable (fn : Nat → Except JsError α) (cfg : RetryOptions)
    (rands : Nat → ℚ) (e : JsError) (hfn : fn 1 = .error e)
    (hre : isRetryableError e = true) (h2 : 2 ≤ cfg.maxAttempts) :
    (retryWithBackoff fn cfg rands).delays.head? =
      some (retryDelayFor e 1 cfg (rands 1)) := by
  obtain ⟨m, hm⟩ : ∃ m, cfg.maxAttempts = m + 1 + 1 := ⟨cfg.maxAttempts - 2, by omega⟩
  rw [retryWithBackoff, hm]
  simp [retryAux, hfn, hre]

/-! Claims. -/

/-- C1: evaluation at the failing input.  A transport failure carrying
the transient network code ECONNRESET and no HTTP response is mapped by
handleResponseError to the base XiboError with status 0 (the
Unclassified kind), not to a Network kind; isRetryableError rejects the
wrapped error, and the executor performs exactly one attempt, failing
immediately with no retry and no delay.  The final conjunct shows that
the network-code branch of isRetryableError would have accepted the raw
error, so the wrapping defeats the code's own transient-network
handling. -/
theorem c1_network_error_not_retried :
    handleResponseError ⟨none, some "ECONNRESET", "socket hang up"⟩ =
      .generic "socket hang up" "0" 0 ∧
    isRetryableError
      (.xibo (handleResponseError ⟨none, some "ECONNRESET", "socket hang up"⟩)) = false ∧
    (httpRequest (fun _ => .error ⟨none, some "ECONNRESET", "socket hang up"⟩)
        DEFAULT_RETRY_OPTIONS (fun _ => 0) : ExecTrace Nat) =
      ⟨.error (some (.xibo (.generic "socket hang up" "0" 0))), 1, []⟩ ∧
    isRetryableError (.node "ECONNRESET" "socket hang up") = true :=
  ⟨by decide, by decide, rfl, by decide⟩

/-- C2: evaluation at the failing input.  When the token endpoint
answers without an access_token field, obtainToken returns a token
value whose access token is absent instead of failing with an
Authentication error; a failing token-endpoint call, by contrast, is
wrapped as the claim states. -/
theorem c2_missing_access_token_returned :
    obtainToken .client_credentials true
        (.ok ⟨none, some "Bearer", some 3600, none, none⟩) =
      .ok ⟨none, "Bearer", 3600, none, none⟩ ∧
    obtainToken .client_credentials true (.error "connect ECONNREFUSED 127.0.0.1:443") =
      .error (.authentication
        "OAuth2 authentication failed: connect ECONNREFUSED 127.0.0.1:443") :=
  ⟨rfl, rfl⟩

/-- C3 counterexample: a RateLimited failure with no timing hints makes
the executor wait the fixed 60000 ms default, while the exponential
backoff schedule of the options in effect prescribes 1000 ms for the
first delay. -/
theorem c3_counterexample :
    (retryWithBackoff
        (fun j => if j = 1 then
            .error (.xibo (.rateLimit "Rate limit exceeded" ⟨none, none, none⟩))
          else .ok 0)
        ⟨3, 1000, 30000, 2, false⟩ (fun _ => 0)).delays.head? = some 60000 ∧
    calculateDelay 1 ⟨3, 1000, 30000, 2, false⟩ 0 = 1000 ∧
    (60000 : ℚ) ≠ 1000 :=
  ⟨by decide, by norm_num [calculateDelay], by norm_num⟩

/-- C3 amended: for every RateLimited failure that carries none of the
server timing hints, the delay before the executor's next attempt is
the fixed default of 60000 ms (the RateLimitError default collection
interval), regardless of the RetryOptions in effect. -/
theorem c3_hintless_rate_limit_default_delay (msg : String) (rem rst : Option Int)
    (cfg : RetryOptions) (h2 : 2 ≤ cfg.maxAttempts) (rands : Nat → ℚ)
    (fn : Nat → Except JsError Nat)
    (hfn : fn 1 = .error (.xibo (.rateLimit msg ⟨none, rem, rst⟩))) :
    (retryWithBackoff fn cfg rands).delays.head? = some 60000 := by
  rw [firstDelay_of_retryable fn cfg rands _ hfn rfl h2]
  rfl

/-- C3 witness: the amended statement at a concrete run. -/
theorem c3_witness :
    (retryWithBackoff
        (fun j => if j = 1 then
            .error (.xibo (.rateLimit "Rate limit exceeded" ⟨none, none, none⟩))
          else .ok 0)
        DEFAULT_RETRY_OPTIONS (fun _ => 0)).delays.head? = some 60000 :=
  c3_hintless_rate_limit_default_delay "Rate limit exceeded" none none
    DEFAULT_RETRY_OPTIONS (by norm_num [DEFAULT_RETRY_OPTIONS]) (fun _ => 0)
    (fun j => if j = 1 then
        .error (.xibo (.rateLimit "Rate limit exceeded" ⟨none, none, none⟩))
      else .ok 0) rfl

/-- C5 counterexample: a RateLimited failure whose retry-after hint is
present with value 0 (retryAfterMs = 0) delays the next attempt by
60000 ms, not by the server-supplied duration of 0 ms. -/
theorem c5_counterexample :
    (⟨some 0, none, none⟩ : RateLimitData).retryAfter = some 0 ∧
    (retryWithBackoff
        (fun j => if j = 1 then
            .error (.xibo (.rateLimit "Rate limit exceeded" ⟨some 0, none, none⟩))
          else .ok 0)
        ⟨3, 1000, 30000, 2, true⟩ (fun _ => 1/2)).delays.head? = some 60000 ∧
    (60000 : ℚ) ≠ 0 * 1000 :=
  ⟨rfl, by decide, by norm_num⟩

/-- C5 amended: for every RateLimited failure whose retry-after hint is
present and nonzero, the delay before the executor's next attempt is
exactly the server-supplied duration (retryAfter seconds, i.e.
retryAfter * 1000 ms), regardless of the RetryOptions in effect. -/
theorem c5_retry_after_verbatim (r : Int) (hr : r ≠ 0) (msg : String)
    (rem rst : Option Int) (cfg : RetryOptions) (h2 : 2 ≤ cfg.maxAttempts)
    (rands : Nat → ℚ) (fn : Nat → Except JsError Nat)
    (hfn : fn 1 = .error (.xibo (.rateLimit msg ⟨some r, rem, rst⟩))) :
    (retryWithBackoff fn cfg rands).delays.head? = some ((r : ℚ) * 1000) := by
  rw [firstDelay_of_retryable fn cfg rands _ hfn rfl h2]
  simp [retryDelayFor, getRetryDelay, hr]

/-- C5 witness: retryAfter = 5 yields a 5000 ms delay under options
whose backoff schedule would have waited 1000 ms. -/
theorem c5_witness :
    (retryWithBackoff
        (fun j => if j = 1 then
            .error (.xibo (.rateLimit "Rate limit exceeded" ⟨some 5, none, none⟩))
          else .ok 0)
        ⟨3, 1000, 30000, 2, false⟩ (fun _ => 0)).delays.head? = some 5000 := by
  have h := c5_retry_after_verbatim 5 (by norm_num) "Rate limit exceeded" none none
    ⟨3, 1000, 30000, 2, false⟩ (by norm_num) (fun _ => 0)
    (fun j => if j = 1 then
        .error (.xibo (.rateLimit "Rate limit exceeded" ⟨some 5, none, none⟩))
      else .ok 0) rfl
  rw [h]
  norm_num

/-- C6 counterexample: with jitter disabled and backoffMultiplier 1/2,
the delay for attempt 2 is strictly below the delay for attempt 1, so
the computed backoff delay is not monotonically non-decreasing for
every RetryOptions. -/
theorem c6_counterexample :
    calculateDelay 2 ⟨3, 1000, 30000, 1/2, false⟩ 0 <
      calculateDelay 1 ⟨3, 1000, 30000, 1/2, false⟩ 0 := by
  norm_num [calculateDelay]

/-- C6 amended: with jitter disabled, for every RetryOptions whose
initial delay and max delay are nonnegative and whose backoff
multiplier is at least 1, the computed delay is monotone in the attempt
number, equals min(initialDelay * backoffMultiplier^(attempt-1),
maxDelay), and stays within [0, maxDelay]. -/
theorem c6_backoff_monotone_bounded (o : RetryOptions) (rand : ℚ)
    (hj : o.jitter = false) (hi : 0 ≤ o.initialDelay) (hM : 0 ≤ o.maxDelay)
    (hm : 1 ≤ o.backoffMultiplier) :
    (∀ a1 a2 : Nat, a1 ≤ a2 →
      calculateDelay a1 o rand ≤ calculateDelay a2 o rand) ∧
    (∀ a : Nat, calculateDelay a o rand =
      min (o.initialDelay * o.backoffMultiplier ^ (a - 1)) o.maxDelay) ∧
    (∀ a : Nat, 0 ≤ calculateDelay a o rand ∧ calculateDelay a o rand ≤ o.maxDelay) := by
  have hpow : ∀ a : Nat, (0 : ℚ) ≤ o.initialDelay * o.backoffMultiplier ^ (a - 1) :=
    fun a => mul_nonneg hi (pow_nonneg (le_trans zero_le_one hm) _)
  have heq : ∀ a : Nat, calculateDelay a o rand =
      min (o.initialDelay * o.backoffMultiplier ^ (a - 1)) o.maxDelay := by
    intro a
    simp only [calculateDelay, hj, if_false, Bool.false_eq_true]
    exact max_eq_left (le_min (hpow a) hM)
  refine ⟨?_, heq, ?_⟩
  · intro a1 a2 h
    rw [heq, heq]
    exact min_le_min
      (mul_le_mul_of_nonneg_left (pow_le_pow_right₀ hm (by omega)) hi) (le_refl _)
  · intro a
    rw [heq]
    exact ⟨le_min (hpow a) hM, min_le_right _ _⟩

/-- C6 witness: the amended statement applied to concrete options and
attempts. -/
theorem c6_witness :
    calculateDelay 1 ⟨3, 1000, 30000, 2, false⟩ 0 ≤
      calculateDelay 3 ⟨3, 1000, 30000, 2, false⟩ 0 ∧
    calculateDelay 7 ⟨3, 1000, 30000, 2, false⟩ 0 ≤ 30000 := by
  have h := c6_backoff_monotone_bounded ⟨3, 1000, 30000, 2, false⟩ 0 rfl
    (by norm_num) (by norm_num) (by norm_num)
  exact ⟨h.1 1 3 (by norm_num), (h.2.2 7).2⟩

/-- C10: a RateLimitError whose retryAfter hint is absent or 0 yields
the fixed 60000 ms retry delay; in particular a 429 response with a
Retry-After header of 0, fed through the classifier and the executor,
delays the next attempt by 60000 ms rather than retrying at once. -/
theorem c10_retry_after_zero_default (d : RateLimitData)
    (h : d.retryAfter = none ∨ d.retryAfter = some 0) :
    getRetryDelay d = 60000 ∧
    ∀ cfg : RetryOptions, 2 ≤ cfg.maxAttempts → ∀ rands : Nat → ℚ,
      (httpRequest (fun j => if j = 1 then
          .error ⟨some ⟨429, [("Retry-After", "0")], none⟩, none, "Too Many Requests"⟩
        else .ok 0) cfg rands).delays.head? = some 60000 := by
  constructor
  · rcases h with h | h <;> simp [getRetryDelay, h]
  · intro cfg h2 rands
    have hclass :
        handleResponseError
            ⟨some ⟨429, [("Retry-After", "0")], none⟩, none, "Too Many Requests"⟩ =
          .rateLimit "Too Many Requests" ⟨some 0, none, none⟩ := by decide
    rw [httpRequest,
      firstDelay_of_retryable _ cfg rands
        (.xibo (.rateLimit "Too Many Requests" ⟨some 0, none, none⟩))
        (by simp [classifyOutcome, hclass]) rfl h2]
    rfl

/-- Hint field contract of the 429 branch: the field is absent (not
zero) when the header is missing or empty, and carries the parsed
header value when the header is present and nonempty. -/
def hintSpec (hs : Headers) (k : String) (v : Option Int) : Prop :=
  (lookupHeader hs k = none → v = none) ∧
  (∀ s, lookupHeader hs k = some s → s = "" → v = none) ∧
  (∀ s, lookupHeader hs k = some s → s ≠ "" → v = jsParseInt s)

/-- Helper: the rateLimitFromHeaders extraction satisfies the hint field
contract for each of the three headers. -/
lemma headerInt_hintSpec (hs : Headers) (k : String) :
    hintSpec hs k (headerInt hs k) := by
  refine ⟨fun h => ?_, fun s h hs0 => ?_, fun s h hs0 => ?_⟩
  · simp [headerInt, h]
  · simp [headerInt, h, hs0]
  · simp [headerInt, h, hs0]

/-- C4: the error classifier is a pure total function of the failed
response, mapping 401 to Authentication, 403 to Authorization, 404 to
NotFound, 400 and 422 to Validation, 429 to RateLimited with each hint
field populated from its header and absent (not zero) when the header
is missing, any other status at least 500 to Server carrying that
status, and every remaining status to the base (Unclassified) error
carrying that status. -/
theorem c4_classifier_mapping (e : TransportFailure) :
    (responseStatus e = 401 → ∃ m, handleResponseError e = .authentication m) ∧
    (responseStatus e = 403 → ∃ m, handleResponseError e = .authorization m) ∧
    (responseStatus e = 404 → ∃ m, handleResponseError e = .notFound m) ∧
    (responseStatus e = 400 ∨ responseStatus e = 422 →
      ∃ m, handleResponseError e = .validation m) ∧
    (responseStatus e = 429 →
      ∃ m d, handleResponseError e = .rateLimit m d ∧
        ∀ r, e.response = some r →
          hintSpec (normalizeHeaders r.headers) "retry-after" d.retryAfter ∧
          hintSpec (normalizeHeaders r.headers) "x-ratelimit-remaining" d.remaining ∧
          hintSpec (normalizeHeaders r.headers) "x-ratelimit-reset" d.reset) ∧
    (500 ≤ responseStatus e →
      ∃ m, handleResponseError e = .server m (responseStatus e)) ∧
    (responseStatus e ≠ 401 → responseStatus e ≠ 403 → responseStatus e ≠ 404 →
      responseStatus e ≠ 400 → responseStatus e ≠ 422 → responseStatus e ≠ 429 →
      responseStatus e < 500 →
      ∃ m, handleResponseError e =
        .generic m (toString (responseStatus e)) (responseStatus e)) := by
  refine ⟨fun h => ?_, fun h => ?_, fun h => ?_, fun h => ?_, fun h => ?_,
    fun h => ?_, fun h1 h2 h3 h4 h5 h6 h7 => ?_⟩
  · exact ⟨extractMessage (e.response.bind (·.body)) e.message,
      by simp [handleResponseError, h]⟩
  · exact ⟨extractMessage (e.response.bind (·.body)) e.message,
      by simp [handleResponseError, h]⟩
  · exact ⟨extractMessage (e.response.bind (·.body)) e.message,
      by simp [handleResponseError, h]⟩
  · exact ⟨extractMessage (e.response.bind (·.body)) e.message,
      by rcases h with h | h <;> simp [handleResponseError, h]⟩
  · cases hr : e.response with
    | none => rw [responseStatus, hr] at h; exact absurd h (by norm_num)
    | some r =>
        refine ⟨extractMessage (e.response.bind (·.body)) e.message,
          rateLimitFromHeaders (normalizeHeaders r.headers), ?_, ?_⟩
        · simp [handleResponseError, h, hr]
        · intro r' hr'
          have hrr : r = r' := Option.some.inj hr'
          subst hrr
          exact ⟨headerInt_hintSpec _ _, headerInt_hintSpec _ _, headerInt_hintSpec _ _⟩
  · have n1 : responseStatus e ≠ 401 := by omega
    have n2 : responseStatus e ≠ 403 := by omega
    have n3 : responseStatus e ≠ 404 := by omega
    have n4 : responseStatus e ≠ 400 := by omega
    have n5 : responseStatus e ≠ 422 := by omega
    have n6 : responseStatus e ≠ 429 := by omega
    exact ⟨extractMessage (e.response.bind (·.body)) e.message,
      by simp [handleResponseError, n1, n2, n3, n4, n5, n6, h]⟩
  · exact ⟨extractMessage (e.response.bind (·.body)) e.message,
      by simp [handleResponseError, h1, h2, h3, h4, h5, h6, Nat.not_le.mpr h7]⟩

/-- C4 witness: the mapping applied at concrete failed responses for a
404, a 429 with a missing retry-after header, and a bare 418. -/
theorem c4_witness :
    (∃ m, handleResponseError ⟨some ⟨404, [], none⟩, none, "gone"⟩ = .notFound m) ∧
    (∃ m d, handleResponseError ⟨some ⟨429, [], none⟩, none, "slow down"⟩ =
        .rateLimit m d ∧
      ∀ r, (⟨some ⟨429, [], none⟩, none, "slow down"⟩ : TransportFailure).response = some r →
        hintSpec (normalizeHeaders r.headers) "retry-after" d.retryAfter ∧
        hintSpec (normalizeHeaders r.headers) "x-ratelimit-remaining" d.remaining ∧
        hintSpec (normalizeHeaders r.headers) "x-ratelimit-reset" d.reset) ∧
    (∃ m, handleResponseError ⟨some ⟨418, [], none⟩, none, "teapot"⟩ =
      .generic m "418" 418) :=
  ⟨(c4_classifier_mapping ⟨some ⟨404, [], none⟩, none, "gone"⟩).2.2.1 rfl,
   (c4_classifier_mapping ⟨some ⟨429, [], none⟩, none, "slow down"⟩).2.2.2.2.1 rfl,
   (c4_classifier_mapping ⟨some ⟨418, [], none⟩, none, "teapot"⟩).2.2.2.2.2.2
     (by decide) (by decide) (by decide) (by decide) (by decide)
     (by decide) (by decide)⟩

/-- Helper: one unfolding step of the retry loop at a retryable failure
with budget left. -/
lemma retryAux_step (fn : Nat → Except JsError α) (cfg : RetryOptions)
    (rands : Nat → ℚ) (attempt r : Nat) (e : JsError)
    (he : fn attempt = .error e) (hre : isRetryableError e = true) (hr : r ≠ 0) :
    retryAux fn cfg rands attempt (r + 1) =
      ⟨(retryAux fn cfg rands (attempt + 1) r).result,
       (retryAux fn cfg rands (attempt + 1) r).attemptsMade + 1,
       retryDelayFor e attempt cfg (rands attempt) ::
         (retryAux fn cfg rands (attempt + 1) r).delays⟩ := by
  conv_lhs => rw [retryAux]
  rw [he]
  simp [hre, hr]

/-- Helper: one terminal step of the retry loop, at a non-retryable
failure or on the last allowed attempt. -/
lemma retryAux_stop (fn : Nat → Except JsError α) (cfg : RetryOptions)
    (rands : Nat → ℚ) (attempt r : Nat) (e : JsError)
    (he : fn attempt = .error e)
    (hstop : isRetryableError e = false ∨ r = 0) :
    retryAux fn cfg rands attempt (r + 1) = ⟨.error (some e), 1, []⟩ := by
  conv_lhs => rw [retryAux]
  rw [he]
  rcases hstop with h | h
  · simp [h]
  · subst h
    by_cases hre : isRetryableError e <;> simp [hre]

/-- Helper: a run whose attempts from position attempt onward fail with
retryable errors i times and then hit a non-retryable error stops at
that error, having made i + 1 attempts and slept i delays. -/
lemma retryAux_stops_nonretryable (fn : Nat → Except JsError α) (cfg : RetryOptions)
    (rands : Nat → ℚ) :
    ∀ (i attempt remaining : Nat) (err : JsError), i < remaining →
      (∀ j, attempt ≤ j → j < attempt + i →
        ∃ e', fn j = .error e' ∧ isRetryableError e' = true) →
      fn (attempt + i) = .error err → isRetryableError err = false →
      (retryAux fn cfg rands attempt remaining).result = .error (some err) ∧
      (retryAux fn cfg rands attempt remaining).attemptsMade = i + 1 ∧
      (retryAux fn cfg rands attempt remaining).delays.length = i := by
  intro i
  induction i with
  | zero =>
      intro attempt remaining err hir hpre hf hnr
      obtain ⟨r, rfl⟩ : ∃ r, remaining = r + 1 := ⟨remaining - 1, by omega⟩
      rw [Nat.add_zero] at hf
      rw [retryAux_stop fn cfg rands attempt r err hf (Or.inl hnr)]
      exact ⟨rfl, rfl, rfl⟩
  | succ i ih =>
      intro attempt remaining err hir hpre hf hnr
      obtain ⟨r, rfl⟩ : ∃ r, remaining = r + 1 := ⟨remaining - 1, by omega⟩
      obtain ⟨e1, he1, hre1⟩ := hpre attempt (le_refl _) (by omega)
      have hr0 : r ≠ 0 := by omega
      have ihres := ih (attempt + 1) r err (by omega)
        (fun j hj1 hj2 => hpre j (by omega) (by omega))
        (by rw [show attempt + 1 + i = attempt + (i + 1) by omega]; exact hf) hnr
      rw [retryAux_step fn cfg rands attempt r e1 he1 hre1 hr0]
      exact ⟨ihres.1, by rw [ihres.2.1], by simp [ihres.2.2]⟩

/-- Helper: a run all of whose allowed attempts fail with retryable
errors performs every allowed attempt, sleeps one delay fewer, and
surfaces the error of the last attempt itself. -/
lemma retryAux_exhausts (fn : Nat → Except JsError α) (cfg : RetryOptions)
    (rands : Nat → ℚ) :
    ∀ (remaining attempt : Nat), 1 ≤ remaining →
      (∀ j, attempt ≤ j → j < attempt + remaining →
        ∃ e', fn j = .error e' ∧ isRetryableError e' = true) →
      ∃ eLast, fn (attempt + remaining - 1) = .error eLast ∧
        (retryAux fn cfg rands attempt remaining).result = .error (some eLast) ∧
        (retryAux fn cfg rands attempt remaining).attemptsMade = remaining ∧
        (retryAux fn cfg rands attempt remaining).delays.length = remaining - 1 := by
  intro remaining
  induction remaining with
  | zero => intro attempt h1; omega
  | succ r ih =>
      intro attempt _ hpre
      obtain ⟨e1, he1, hre1⟩ := hpre attempt (le_refl _) (by omega)
      cases r with
      | zero =>
          refine ⟨e1, by simpa using he1, ?_⟩
          rw [retryAux_stop fn cfg rands attempt 0 e1 he1 (Or.inr rfl)]
          exact ⟨rfl, rfl, rfl⟩
      | succ r' =>
          obtain ⟨eLast, hfl, hres, hatt, hlen⟩ := ih (attempt + 1) (by omega)
            (fun j hj1 hj2 => hpre j (by omega) (by omega))
          refine ⟨eLast, ?_, ?_, ?_, ?_⟩
          · rw [show attempt + (r' + 1 + 1) - 1 = attempt + 1 + (r' + 1) - 1 by omega]
            exact hfl
          all_goals rw [retryAux_step fn cfg rands attempt (r' + 1) e1 he1 hre1 (by omega)]
          · exact hres
          · rw [hatt]
          · simp [hlen]

/-- C7: the executor surfaces a permanent-kind failure immediately and
with no backoff delay for it (the run ends at that attempt, with one
delay per earlier retried attempt only), and when every allowed attempt
fails with a retryable error it performs exactly maxAttempts attempts,
sleeps exactly maxAttempts - 1 delays, and surfaces the last classified
error itself rather than a synthetic exhaustion error. -/
theorem c7_retry_policy (fn : Nat → Except JsError α) (cfg : RetryOptions)
    (rands : Nat → ℚ) :
    (∀ (k : Nat) (e : XErr), 1 ≤ k → k ≤ cfg.maxAttempts →
      (∀ j, 1 ≤ j → j < k → ∃ e', fn j = .error e' ∧ isRetryableError e' = true) →
      fn k = .error (.xibo e) → e.isPermanentKind = true →
      (retryWithBackoff fn cfg rands).result = .error (some (.xibo e)) ∧
      (retryWithBackoff fn cfg rands).attemptsMade = k ∧
      (retryWithBackoff fn cfg rands).delays.length = k - 1) ∧
    (1 ≤ cfg.maxAttempts →
      (∀ j, 1 ≤ j → j ≤ cfg.maxAttempts →
        ∃ e', fn j = .error e' ∧ isRetryableError e' = true) →
      ∃ eLast, fn cfg.maxAttempts = .error eLast ∧
        (retryWithBackoff fn cfg rands).result = .error (some eLast) ∧
        (retryWithBackoff fn cfg rands).attemptsMade = cfg.maxAttempts ∧
        (retryWithBackoff fn cfg rands).delays.length = cfg.maxAttempts - 1) := by
  constructor
  · intro k e hk1 hk2 hpre hfk hperm
    have h := retryAux_stops_nonretryable fn cfg rands (k - 1) 1 cfg.maxAttempts
      (.xibo e) (by omega)
      (fun j hj1 hj2 => hpre j hj1 (by omega))
      (by rw [show 1 + (k - 1) = k by omega]; exact hfk)
      (permanent_not_retryable e hperm)
    rw [retryWithBackoff]
    exact ⟨h.1, by rw [h.2.1]; omega, by rw [h.2.2]⟩
  · intro hmax hpre
    obtain ⟨eLast, hfl, hres, hatt, hlen⟩ := retryAux_exhausts fn cfg rands
      cfg.maxAttempts 1 hmax (fun j hj1 hj2 => hpre j hj1 (by omega))
    refine ⟨eLast, ?_, ?_, ?_, ?_⟩
    · rw [show (1 : Nat) + cfg.maxAttempts - 1 = cfg.maxAttempts by omega] at hfl
      exact hfl
    · rw [retryWithBackoff]; exact hres
    · rw [retryWithBackoff]; exact hatt
    · rw [retryWithBackoff]; exact hlen

/-- Attempt oracle failing every attempt with a permanent NotFound. -/
def c7FnPermanent : Nat → Except JsError Nat :=
  fun _ => .error (.xibo (.notFound "missing"))

/-- Attempt oracle failing every attempt with a retryable Server 500. -/
def c7FnServer : Nat → Except JsError Nat :=
  fun _ => .error (.xibo (.server "boom" 500))

/-- C7 witness: a permanent 404 on the first attempt ends the run at one
attempt with no delay; three retryable 500 failures under the default
three-attempt budget yield three attempts, two delays, and the last
Server error. -/
theorem c7_witness :
    ((retryWithBackoff c7FnPermanent DEFAULT_RETRY_OPTIONS (fun _ => 0)).result =
        .error (some (.xibo (.notFound "missing"))) ∧
      (retryWithBackoff c7FnPermanent DEFAULT_RETRY_OPTIONS (fun _ => 0)).attemptsMade = 1 ∧
      (retryWithBackoff c7FnPermanent DEFAULT_RETRY_OPTIONS (fun _ => 0)).delays.length = 0) ∧
    (∃ eLast, c7FnServer DEFAULT_RETRY_OPTIONS.maxAttempts = .error eLast ∧
      (retryWithBackoff c7FnServer DEFAULT_RETRY_OPTIONS (fun _ => 0)).result =
        .error (some eLast) ∧
      (retryWithBackoff c7FnServer DEFAULT_RETRY_OPTIONS (fun _ => 0)).attemptsMade =
        DEFAULT_RETRY_OPTIONS.maxAttempts ∧
      (retryWithBackoff c7FnServer DEFAULT_RETRY_OPTIONS (fun _ => 0)).delays.length =
        DEFAULT_RETRY_OPTIONS.maxAttempts - 1) := by
  constructor
  · have h := (c7_retry_policy c7FnPermanent DEFAULT_RETRY_OPTIONS (fun _ => 0)).1
      1 (.notFound "missing") (le_refl 1) (by norm_num [DEFAULT_RETRY_OPTIONS])
      (fun j hj1 hj2 => absurd (lt_of_le_of_lt hj1 hj2) (lt_irrefl 1)) rfl rfl
    exact ⟨h.1, h.2.1, h.2.2⟩
  · exact (c7_retry_policy c7FnServer DEFAULT_RETRY_OPTIONS (fun _ => 0)).2
      (by norm_num [DEFAULT_RETRY_OPTIONS])
      (fun j _ _ => ⟨.xibo (.server "boom" 500), rfl, rfl⟩)

/-- C10 witness: the theorem applied at retryAfter = some 0 and the
default retry options. -/
theorem c10_witness :
    getRetryDelay ⟨some 0, none, none⟩ = 60000 ∧
    (httpRequest (fun j => if j = 1 then
        .error ⟨some ⟨429, [("Retry-After", "0")], none⟩, none, "Too Many Requests"⟩
      else .ok 0) DEFAULT_RETRY_OPTIONS (fun _ => 0)).delays.head? = some 60000 :=
  ⟨(c10_retry_after_zero_default ⟨some 0, none, none⟩ (Or.inr rfl)).1,
   (c10_retry_after_zero_default ⟨some 0, none, none⟩ (Or.inr rfl)).2
     DEFAULT_RETRY_OPTIONS (by norm_num [DEFAULT_RETRY_OPTIONS]) (fun _ => 0)⟩

/-- C8: a token put at time now0 with expiresInSeconds above 600 is
Valid immediately after the put; and once now reaches
expiresAtEpochMs minus the five-minute buffer the token is Expired and
a subsequent getAccessToken performs exactly one provider exchange. -/
theorem c8_freshness_and_refresh (tr : TokenResponse) (now0 : Int) :
    (600 < tr.expires_in → freshness (mkCachedToken tr now0) now0 = .valid) ∧
    (∀ now : Int, (mkCachedToken tr now0).expires_at - 5 * 60 * 1000 ≤ now →
      freshness (mkCachedToken tr now0) now = .expired ∧
      ∀ (grantType : GrantType) (hcc : Bool) (call : Except String RawToken),
        (oauthGetAccessToken (storeToken tr now0 TMState.empty) now
            grantType hcc call).providerCalls = 1) := by
  constructor
  · intro h
    have hv : isTokenValid (mkCachedToken tr now0) now0 = true := by
      simp only [isTokenValid, mkCachedToken, decide_eq_true_eq]
      omega
    have hn : needsRefresh (mkCachedToken tr now0) now0 = false := by
      simp only [needsRefresh, mkCachedToken, decide_eq_false_iff_not]
      omega
    simp [freshness, hv, hn]
  · intro now hnow
    have hv : isTokenValid (mkCachedToken tr now0) now = false := by
      simp only [isTokenValid, mkCachedToken, decide_eq_false_iff_not]
      simp only [mkCachedToken] at hnow
      omega
    refine ⟨by simp [freshness, hv], ?_⟩
    intro grantType hcc call
    have hget : getToken (storeToken tr now0 TMState.empty) now =
        (none, clearToken (storeToken tr now0 TMState.empty)) := by
      simp [getToken, storeToken, loadFromStorage, hv]
    simp only [oauthGetAccessToken, tmGetAccessToken, hget, Option.bind,
      Option.none_bind]
    cases obtainToken grantType hcc call <;> rfl

/-- C8 witness: a 3600-second token stored at epoch 0 is Valid at time 0,
Expired at 3300000 ms (five minutes before its 3600000 ms expiry), and a
getAccessToken at that time performs one provider call. -/
theorem c8_witness :
    freshness (mkCachedToken ⟨some "tok", "Bearer", 3600, none, none⟩ 0) 0 = .valid ∧
    freshness (mkCachedToken ⟨some "tok", "Bearer", 3600, none, none⟩ 0) 3300000 =
      .expired ∧
    (oauthGetAccessToken
        (storeToken ⟨some "tok", "Bearer", 3600, none, none⟩ 0 TMState.empty)
        3300000 .client_credentials true
        (.ok ⟨some "tok2", some "Bearer", some 3600, none, none⟩)).providerCalls = 1 := by
  have h := c8_freshness_and_refresh ⟨some "tok", "Bearer", 3600, none, none⟩ 0
  have h2 := h.2 3300000 (by norm_num [mkCachedToken])
  exact ⟨h.1 (by norm_num), h2.1,
    h2.2 .client_credentials true (.ok ⟨some "tok2", some "Bearer", some 3600, none, none⟩)⟩

/-- Helper: loading from storage does not create tokens, it can only
surface a token that was already in the state. -/
lemma tokenIn_load {st : TMState} {now : Int} {ct : CachedToken}
    (h : tokenIn (loadFromStorage st now).2 ct) : tokenIn st ct := by
  unfold loadFromStorage at h
  cases hs : st.storage with
  | some p =>
      rw [hs] at h
      by_cases hv : isTokenValid p now
      · simp only [hv, if_true, tokenIn] at h
        have hpc : p = ct := by
          rcases h with h | h <;> exact Option.some.inj h
        exact Or.inr (show st.storage = some ct by rw [hs, hpc])
      · simp only [hv, if_false, Bool.false_eq_true] at h
        rcases h with h | h <;> simp [clearToken] at h
  | none =>
      rw [hs] at h
      exact h

/-- Helper: any token observable after one cache operation was either
already observable or installed by that operation when it is a put. -/
lemma tokenIn_applyOp {st : TMState} {op : TMOp} {ct : CachedToken}
    (h : tokenIn (applyOp st op) ct) :
    tokenIn st ct ∨ ∃ tr now, op = TMOp.putOp tr now ∧ ct = mkCachedToken tr now := by
  cases op with
  | getOp now =>
      left
      simp only [applyOp] at h
      rw [getToken] at h
      cases hc : st.cachedToken with
      | some c =>
          rw [hc] at h
          by_cases hv : isTokenValid c now
          · simp only [hv, if_true] at h
            exact h
          · simp only [hv, if_false, Bool.false_eq_true] at h
            exact tokenIn_load h
      | none =>
          rw [hc] at h
          exact tokenIn_load h
  | putOp tr now =>
      right
      simp only [applyOp, storeToken, tokenIn] at h
      rcases h with h | h <;>
        exact ⟨tr, now, rfl, (Option.some.inj h).symm⟩
  | clearOp =>
      rcases h with h | h <;> simp [applyOp, clearToken] at h

/-- Helper: running operations preserves put-provenance of every
observable token. -/
lemma runOps_installed :
    ∀ (ops all : List TMOp), (∀ o ∈ ops, o ∈ all) →
      ∀ st : TMState, (∀ ct, tokenIn st ct → InstalledByPut all ct) →
        ∀ ct, tokenIn (runOps st ops) ct → InstalledByPut all ct := by
  intro ops
  induction ops with
  | nil =>
      intro all _ st hst ct h
      exact hst ct (by simpa [runOps] using h)
  | cons op rest ih =>
      intro all hsub st hst ct h
      have h' : tokenIn (runOps (applyOp st op) rest) ct := by
        simpa [runOps] using h
      refine ih all (fun o ho => hsub o (List.mem_cons_of_mem _ ho)) (applyOp st op)
        ?_ ct h'
      intro ct' hct'
      rcases tokenIn_applyOp hct' with hin | ⟨tr, now, rfl, rfl⟩
      · exact hst ct' hin
      · exact ⟨tr, now, hsub _ (List.mem_cons_self _ _), rfl⟩

/-- C9: after any sequence of cache operations starting from the empty
cache, every in-memory cached token was installed by some put of the
sequence, whose CachedToken fields were computed as obtained_at = now
and expires_at = now + expiresInSeconds * 1000; moreover every put
replaces the in-memory copy and mirrors the same token to the store. -/
theorem c9_put_only_entry (ops : List TMOp) (ct : CachedToken)
    (h : (runOps TMState.empty ops).cachedToken = some ct) :
    (∃ tr now, TMOp.putOp tr now ∈ ops ∧ ct = mkCachedToken tr now ∧
      ct.obtained_at = now ∧ ct.expires_at = now + tr.expires_in * 1000) ∧
    ∀ (tr : TokenResponse) (now : Int) (st : TMState),
      storeToken tr now st =
        ⟨some (mkCachedToken tr now), some (mkCachedToken tr now)⟩ := by
  constructor
  · obtain ⟨tr, now, hmem, hct⟩ :=
      runOps_installed ops ops (fun _ ho => ho) TMState.empty
        (fun ct' h' => absurd h' (by simp [tokenIn, TMState.empty])) ct (Or.inl h)
    subst hct
    exact ⟨tr, now, hmem, rfl, rfl, rfl⟩
  · intro tr now st
    rfl

/-- C9 witness: the provenance statement applied to a concrete operation
sequence ending with a get and a put. -/
theorem c9_witness :
    (∃ tr now,
      TMOp.putOp tr now ∈
        [TMOp.putOp ⟨some "tok", "Bearer", 3600, none, none⟩ 5, TMOp.getOp 6] ∧
      mkCachedToken ⟨some "tok", "Bearer", 3600, none, none⟩ 5 = mkCachedToken tr now ∧
      (mkCachedToken ⟨some "tok", "Bearer", 3600, none, none⟩ 5).obtained_at = now ∧
      (mkCachedToken ⟨some "tok", "Bearer", 3600, none, none⟩ 5).expires_at =
        now + tr.expires_in * 1000) ∧
    ∀ (tr : TokenResponse) (now : Int) (st : TMState),
      storeToken tr now st =
        ⟨some (mkCachedToken tr now), some (mkCachedToken tr now)⟩ :=
  c9_put_only_entry
    [TMOp.putOp ⟨some "tok", "Bearer", 3600, none, none⟩ 5, TMOp.getOp 6]
    (mkCachedToken ⟨some "tok", "Bearer", 3600, none, none⟩ 5) (by decide)

end XiboSDK
